import Mathlib

/-!
Verification of the snake-game core (`src/snake.py`).

A shallow embedding of the `SnakeGame` class: its state record and the
operations `place_food`, `move` and `change_direction`, translated
directly from the Python source.  Python's `random.choice(empty_cells)`
is modelled by an extra `Nat` parameter `k` selecting the element
`empty_cells[k % len(empty_cells)]`; theorems quantify over `k`, so they
hold for every possible random choice.  Grid coordinates are `Int`
(Python integers), scores and speeds are `Nat`.
-/

namespace SnakeGame

/-- One `(row, column)` grid position, as the Python tuples `(y, x)`. -/
structure Cell where
  y : Int
  x : Int
deriving DecidableEq, Repr

/-- The four direction keys (`curses.KEY_UP` etc.) the game handles. -/
inductive Direction where
  | up
  | down
  | left
  | right
deriving DecidableEq, Repr

/-- The `opposites` lookup table of `SnakeGame.change_direction`. -/
def opposite : Direction → Direction
  | .up => .down
  | .down => .up
  | .left => .right
  | .right => .left

/-- The mutable fields of the Python `SnakeGame` object. -/
structure Game where
  height : Int
  width : Int
  snake : List Cell
  direction : Direction
  food : Option Cell
  score : Nat
  game_over : Bool
  base_speed : Nat
  direction_changed : Bool
deriving DecidableEq, Repr

/-- The head cell shifted one step in direction `d`
(the `new_head` computation in `SnakeGame.move`). -/
def shift (d : Direction) (c : Cell) : Cell :=
  match d with
  | .up => ⟨c.y - 1, c.x⟩
  | .down => ⟨c.y + 1, c.x⟩
  | .left => ⟨c.y, c.x - 1⟩
  | .right => ⟨c.y, c.x + 1⟩

/-- The interior cells in the order `place_food` enumerates them:
`for i in range(1, height - 1): for j in range(1, width - 1)`. -/
def interiorCells (h w : Int) : List Cell :=
  (List.range (h - 2).toNat).flatMap (fun i =>
    (List.range (w - 2).toNat).map (fun j => ⟨Int.ofNat i + 1, Int.ofNat j + 1⟩))

/-- The `empty_cells` list built by `SnakeGame.place_food`:
interior cells not occupied by the snake. -/
def emptyCells (g : Game) : List Cell :=
  (interiorCells g.height g.width).filter (fun c => !(g.snake.contains c))

/-- Model of `SnakeGame.place_food`, with `random.choice` modelled by index `k`:
if `empty_cells` is non-empty, food becomes its `k % length`-th element;
otherwise the state (in particular `food`) is left unchanged. -/
def place_food (k : Nat) (g : Game) : Game :=
  let empty := emptyCells g
  if empty.isEmpty then g
  else { g with food := some (empty.getD (k % empty.length) ⟨0, 0⟩) }

/-- Model of `SnakeGame.move`, the tick operation.  Faithful to the source order:
clear the debounce flag, compute `new_head`, wall check, self-collision
check against the body before any tail removal, insert the head, then
either grow (score, food re-placement, speed-up) or pop the tail. -/
def move (k : Nat) (g : Game) : Game :=
  match g.snake with
  | [] => { g with direction_changed := false }
  | head :: _ =>
    let new_head := shift g.direction head
    if new_head.y ≤ 0 ∨ new_head.y ≥ g.height - 1 ∨
        new_head.x ≤ 0 ∨ new_head.x ≥ g.width - 1 then
      { g with direction_changed := false, game_over := true }
    else if new_head ∈ g.snake then
      { g with direction_changed := false, game_over := true }
    else if g.food = some new_head then
      let g1 := place_food k
        { g with direction_changed := false,
                 snake := new_head :: g.snake,
                 score := g.score + 10 }
      if g1.base_speed > 40 then { g1 with base_speed := g1.base_speed - 3 }
      else g1
    else
      { g with direction_changed := false,
               snake := (new_head :: g.snake).dropLast }

/-- Model of `SnakeGame.change_direction`: ignored when a change already happened
this tick or when the request is the exact opposite of the current
direction; otherwise the direction is set and the debounce flag raised. -/
def change_direction (nd : Direction) (g : Game) : Game :=
  if g.direction_changed then g
  else if nd = opposite g.direction then g
  else { g with direction := nd, direction_changed := true }

/-- Model of `SnakeGame.__init__(height, width)`: single-cell snake at the grid
centre (`//` is Python floor division, `Int.fdiv`), direction Right,
score 0, base speed 120, then one `place_food` call. -/
def init (h w : Int) (k : Nat) : Game :=
  place_food k
    { height := h
      width := w
      snake := [⟨h.fdiv 2, w.fdiv 2⟩]
      direction := .right
      food := none
      score := 0
      game_over := false
      base_speed := 120
      direction_changed := false }

/-- States reachable from some initialization by ticks and direction
changes, over every possible sequence of random food choices. -/
inductive Reach : Game → Prop where
  | init (h w : Int) (k : Nat) : Reach (init h w k)
  | tick (k : Nat) {g : Game} : Reach g → Reach (move k g)
  | dir (d : Direction) {g : Game} : Reach g → Reach (change_direction d g)

example : (init 10 10 0).snake = [⟨5, 5⟩] := by decide
example : (init 10 10 0).food = some ⟨1, 1⟩ := by decide
example : (move 0 (init 10 10 3)).snake = [⟨5, 6⟩] := by decide

/-! ## Frame lemmas: which fields each operation can touch -/

@[simp]
lemma place_food_snake (k : Nat) (g : Game) : (place_food k g).snake = g.snake := by
  unfold place_food
  dsimp only
  split <;> rfl

@[simp]
lemma place_food_score (k : Nat) (g : Game) : (place_food k g).score = g.score := by
  unfold place_food
  dsimp only
  split <;> rfl

@[simp]
lemma place_food_game_over (k : Nat) (g : Game) :
    (place_food k g).game_over = g.game_over := by
  unfold place_food
  dsimp only
  split <;> rfl

@[simp]
lemma place_food_direction (k : Nat) (g : Game) :
    (place_food k g).direction = g.direction := by
  unfold place_food
  dsimp only
  split <;> rfl

@[simp]
lemma place_food_direction_changed (k : Nat) (g : Game) :
    (place_food k g).direction_changed = g.direction_changed := by
  unfold place_food
  dsimp only
  split <;> rfl

@[simp]
lemma place_food_height (k : Nat) (g : Game) : (place_food k g).height = g.height := by
  unfold place_food
  dsimp only
  split <;> rfl

@[simp]
lemma place_food_width (k : Nat) (g : Game) : (place_food k g).width = g.width := by
  unfold place_food
  dsimp only
  split <;> rfl

@[simp]
lemma place_food_base_speed (k : Nat) (g : Game) :
    (place_food k g).base_speed = g.base_speed := by
  unfold place_food
  dsimp only
  split <;> rfl

/-! ## Concrete states used as witnesses and counterexamples -/

/-- A U-shaped snake on a 10×10 grid whose head at (5,5), moving Left,
steps onto its own tail cell (5,4). -/
def gTailChase : Game :=
  ⟨10, 10, [⟨5, 5⟩, ⟨4, 5⟩, ⟨4, 4⟩, ⟨5, 4⟩], .left, none, 30, false, 120, false⟩

/-- A single-cell snake at row 1 moving Up on a 10×10 grid: the computed
head (0,5) is outside the interior. -/
def gWall : Game :=
  ⟨10, 10, [⟨1, 5⟩], .up, some ⟨3, 3⟩, 0, false, 120, false⟩

/-! ## C1: self-collision against the pre-removal body -/

/-- Core frame lemma shared by the collision claims: when the computed
new head lies in the current (pre-removal) body, `move` only raises
`game_over`, leaving body, food and score untouched. -/
lemma move_of_head_mem_snake (g : Game) (k : Nat) (hd : Cell) (tl : List Cell)
    (hs : g.snake = hd :: tl) (hmem : shift g.direction hd ∈ g.snake) :
    (move k g).game_over = true ∧ (move k g).snake = g.snake ∧
    (move k g).food = g.food ∧ (move k g).score = g.score := by
  obtain ⟨h, w, sn, dir, fd, sc, go, bs, dc⟩ := g
  dsimp only at hs hmem ⊢
  subst hs
  simp only [move]
  by_cases hwall : (shift dir hd).y ≤ 0 ∨ (shift dir hd).y ≥ h - 1 ∨
      (shift dir hd).x ≤ 0 ∨ (shift dir hd).x ≥ w - 1
  · rw [if_pos hwall]
    exact ⟨rfl, rfl, rfl, rfl⟩
  · rw [if_neg hwall, if_pos hmem]
    exact ⟨rfl, rfl, rfl, rfl⟩

/-- Claim C1: For every non-terminal tick, if the computed new head cell is
present anywhere in the current body sequence evaluated before any tail
removal, the tick sets `game_over` to true and makes no other change to
the body, food, or score. -/
theorem self_collision_sets_game_over (g : Game) (k : Nat) (hd : Cell) (tl : List Cell)
    (hterm : g.game_over = false) (hs : g.snake = hd :: tl)
    (hmem : shift g.direction hd ∈ g.snake) :
    (move k g).game_over = true ∧ (move k g).snake = g.snake ∧
    (move k g).food = g.food ∧ (move k g).score = g.score :=
  move_of_head_mem_snake g k hd tl hs hmem

/-- Witness for C1 at the concrete state `gTailChase`. -/
theorem self_collision_sets_game_over_witness :
    (move 0 gTailChase).game_over = true ∧
    (move 0 gTailChase).snake = gTailChase.snake ∧
    (move 0 gTailChase).food = gTailChase.food ∧
    (move 0 gTailChase).score = gTailChase.score :=
  self_collision_sets_game_over gTailChase 0 ⟨5, 5⟩ [⟨4, 5⟩, ⟨4, 4⟩, ⟨5, 4⟩]
    rfl rfl (by decide)

/-! ## C5: wall collision -/

/-- Claim C5: For every non-terminal tick whose computed new head has a row
outside `1..height-2` or a column outside `1..width-2`, the tick sets
`game_over` to true and leaves the body, food, and score unchanged. -/
theorem wall_collision_sets_game_over (g : Game) (k : Nat) (hd : Cell) (tl : List Cell)
    (hterm : g.game_over = false) (hs : g.snake = hd :: tl)
    (hout : ¬ (1 ≤ (shift g.direction hd).y ∧ (shift g.direction hd).y ≤ g.height - 2 ∧
        1 ≤ (shift g.direction hd).x ∧ (shift g.direction hd).x ≤ g.width - 2)) :
    (move k g).game_over = true ∧ (move k g).snake = g.snake ∧
    (move k g).food = g.food ∧ (move k g).score = g.score := by
  obtain ⟨h, w, sn, dir, fd, sc, go, bs, dc⟩ := g
  dsimp only at hs hout ⊢
  subst hs
  simp only [move]
  have hwall : (shift dir hd).y ≤ 0 ∨ (shift dir hd).y ≥ h - 1 ∨
      (shift dir hd).x ≤ 0 ∨ (shift dir hd).x ≥ w - 1 := by omega
  rw [if_pos hwall]
  exact ⟨rfl, rfl, rfl, rfl⟩

/-- Witness for C5 at the concrete state `gWall` (head at row 1 moving Up). -/
theorem wall_collision_sets_game_over_witness :
    (move 0 gWall).game_over = true ∧
    (move 0 gWall).snake = gWall.snake ∧
    (move 0 gWall).food = gWall.food ∧
    (move 0 gWall).score = gWall.score :=
  wall_collision_sets_game_over gWall 0 ⟨1, 5⟩ [] rfl rfl (by decide)

/-! ## A reachable state whose snake fills the whole interior

On a 4×4 grid (interior `{1,2} × {1,2}`) the snake starts at (2,2); with
food placed at (1,2), then (1,1), then (2,1), the turn sequence
Up, Left, Down eats all three and the body covers the interior.  The
final `place_food` finds no empty cell and leaves the stale food. -/
def traceFull : Game :=
  move 0 (change_direction .down
    (move 0 (change_direction .left
      (move 0 (change_direction .up (init 4 4 1))))))

example : traceFull.snake = [⟨2, 1⟩, ⟨1, 1⟩, ⟨1, 2⟩, ⟨2, 2⟩] := by decide
example : traceFull.food = some ⟨2, 1⟩ := by decide
example : traceFull.game_over = false := by decide

/-! ## C2: moving onto the tail cell -/

/-- Claim C2 counterexample: a reachable, non-terminal state with a
length-4 snake whose computed new head is exactly the tail cell (2,2);
contrary to the claim, the tick sets `game_over` (the pre-removal
self-collision check counts the still-occupied tail cell). -/
theorem tail_move_sets_game_over_counterexample :
    Reach (change_direction .right traceFull) ∧
    (change_direction .right traceFull).game_over = false ∧
    (change_direction .right traceFull).snake = [⟨2, 1⟩, ⟨1, 1⟩, ⟨1, 2⟩, ⟨2, 2⟩] ∧
    (change_direction .right traceFull).snake.getLast? = some ⟨2, 2⟩ ∧
    shift (change_direction .right traceFull).direction ⟨2, 1⟩ = ⟨2, 2⟩ ∧
    (move 0 (change_direction .right traceFull)).game_over = true := by
  refine ⟨?_, by decide, by decide, by decide, by decide, by decide⟩
  exact Reach.dir .right (Reach.tick 0 (Reach.dir .down (Reach.tick 0
    (Reach.dir .left (Reach.tick 0 (Reach.dir .up (Reach.init 4 4 1)))))))

/-- Claim C2 amended: for every non-terminal tick of a snake of length at
least 2 whose computed new head equals the cell currently occupied by
the tail (the last body cell), the move is a self-collision: the tick
sets `game_over` to true and leaves body, food and score unchanged —
the pre-removal check does not exempt the about-to-be-vacated tail. -/
theorem tail_move_is_self_collision (g : Game) (k : Nat) (hd : Cell) (tl : List Cell)
    (hterm : g.game_over = false) (hs : g.snake = hd :: tl) (hlen : 2 ≤ g.snake.length)
    (htail : g.snake.getLast? = some (shift g.direction hd)) :
    (move k g).game_over = true ∧ (move k g).snake = g.snake ∧
    (move k g).food = g.food ∧ (move k g).score = g.score := by
  have hne : g.snake ≠ [] := by rw [hs]; exact List.cons_ne_nil hd tl
  have hmem : shift g.direction hd ∈ g.snake := by
    rw [List.getLast?_eq_getLast g.snake hne] at htail
    have := List.getLast_mem hne
    rwa [Option.some_inj.mp htail] at this
  exact move_of_head_mem_snake g k hd tl hs hmem

/-- Witness for the amended C2 at the concrete state `gTailChase`:
the head (5,5) moving Left lands on the tail cell (5,4). -/
theorem tail_move_is_self_collision_witness :
    (move 1 gTailChase).game_over = true ∧
    (move 1 gTailChase).snake = gTailChase.snake ∧
    (move 1 gTailChase).food = gTailChase.food ∧
    (move 1 gTailChase).score = gTailChase.score :=
  tail_move_is_self_collision gTailChase 1 ⟨5, 5⟩ [⟨4, 5⟩, ⟨4, 4⟩, ⟨5, 4⟩]
    rfl rfl (by decide) (by decide)

/-! ## C3: behaviour of the operations on a game-over state

`SnakeGame.move` and `SnakeGame.change_direction` never read
`self.game_over`; only the driver loop (`while not game.game_over`)
stops calling them.  We prove that both operations commute with setting
the flag, and exhibit a reachable game-over state they still mutate. -/

lemma move_set_game_over (k : Nat) (g : Game) :
    move k { g with game_over := true } = { move k g with game_over := true } := by
  obtain ⟨h, w, sn, dir, fd, sc, go, bs, dc⟩ := g
  cases sn with
  | nil => rfl
  | cons hd tl =>
    simp only [move]
    by_cases hwall : (shift dir hd).y ≤ 0 ∨ (shift dir hd).y ≥ h - 1 ∨
        (shift dir hd).x ≤ 0 ∨ (shift dir hd).x ≥ w - 1
    · rw [if_pos hwall, if_pos hwall]
    · rw [if_neg hwall, if_neg hwall]
      by_cases hmem : shift dir hd ∈ hd :: tl
      · rw [if_pos hmem, if_pos hmem]
      · rw [if_neg hmem, if_neg hmem]
        by_cases hfd : fd = some (shift dir hd)
        · rw [if_pos hfd, if_pos hfd]
          simp only [place_food_base_speed]
          by_cases hsp : bs > 40
          · rw [if_pos hsp, if_pos hsp]
            simp only [place_food, emptyCells]
            by_cases he : (List.filter (fun c => !((shift dir hd :: hd :: tl).contains c))
                (interiorCells h w)).isEmpty
            · rw [if_pos he, if_pos he]
            · rw [if_neg he, if_neg he]
          · rw [if_neg hsp, if_neg hsp]
            simp only [place_food, emptyCells]
            by_cases he : (List.filter (fun c => !((shift dir hd :: hd :: tl).contains c))
                (interiorCells h w)).isEmpty
            · rw [if_pos he, if_pos he]
            · rw [if_neg he, if_neg he]
        · rw [if_neg hfd, if_neg hfd]

lemma change_direction_set_game_over (d : Direction) (g : Game) :
    change_direction d { g with game_over := true } =
      { change_direction d g with game_over := true } := by
  obtain ⟨h, w, sn, dir, fd, sc, go, bs, dc⟩ := g
  cases dc with
  | false =>
    by_cases hop : d = opposite dir <;> simp [change_direction, hop]
  | true =>
    simp [change_direction]

/-- Claim C3 amended: `move` and `change_direction` do not consult
`game_over`: each behaves on a frozen state exactly as on the
corresponding unfrozen one (the flag is merely carried through), so a
game-over state is *not* frozen at the operation level — only the
driver loop stops invoking the operations. -/
theorem operations_ignore_game_over (g : Game) (k : Nat) (d : Direction) :
    move k { g with game_over := true } = { move k g with game_over := true } ∧
    change_direction d { g with game_over := true } =
      { change_direction d g with game_over := true } :=
  ⟨move_set_game_over k g, change_direction_set_game_over d g⟩

/-- A reachable game-over state: from `init 10 10 0` turn Up and tick
five times; the fifth tick drives the head into the top wall. -/
def gOverTrace : Game :=
  move 0 (move 0 (move 0 (move 0 (move 0 (change_direction .up (init 10 10 0))))))

example : gOverTrace.game_over = true := by decide
example : gOverTrace.snake = [⟨1, 5⟩] := by decide

/-- Claim C3 counterexample: a reachable state with `game_over = true`
that `change_direction` still mutates (the direction changes), and a
reachable game-over state that `move` still mutates (the snake moves):
the GameOver state is not terminal-and-frozen at the operation level. -/
theorem game_over_not_frozen_counterexample :
    Reach gOverTrace ∧ gOverTrace.game_over = true ∧
    change_direction .left gOverTrace ≠ gOverTrace ∧
    (change_direction .left gOverTrace).game_over = true ∧
    move 0 (change_direction .left gOverTrace) ≠ change_direction .left gOverTrace ∧
    (move 0 (change_direction .left gOverTrace)).snake ≠ gOverTrace.snake := by
  refine ⟨?_, by decide, by decide, by decide, by decide, by decide⟩
  exact Reach.tick 0 (Reach.tick 0 (Reach.tick 0 (Reach.tick 0
    (Reach.tick 0 (Reach.dir .up (Reach.init 10 10 0))))))

/-! ## C4: growth on food, tail pop otherwise -/

/-- A single-cell snake about to step Right onto the food cell (5,6). -/
def gEat : Game :=
  ⟨10, 10, [⟨5, 5⟩], .right, some ⟨5, 6⟩, 0, false, 120, false⟩

/-- The state passed to the food-replacement request inside `move` after
an eat: debounce flag cleared, new head pushed, score already bumped. -/
def grownState (g : Game) (nh : Cell) : Game :=
  { g with direction_changed := false, snake := nh :: g.snake, score := g.score + 10 }

/-- Claim C4: For every non-terminal tick that does not end in a wall or
self collision: if the new head equals the Food cell, the score
increases by exactly 10, the tail is not removed (the whole old body
stays behind the new head), body length increases by exactly one, and
the food is whatever a fresh `place_food` request on the grown state
yields; otherwise the tail cell is removed, body length is unchanged,
and food and score are untouched. -/
theorem food_growth_or_tail_pop (g : Game) (k : Nat) (hd : Cell) (tl : List Cell)
    (hterm : g.game_over = false) (hs : g.snake = hd :: tl)
    (hwall : ¬ ((shift g.direction hd).y ≤ 0 ∨ (shift g.direction hd).y ≥ g.height - 1 ∨
        (shift g.direction hd).x ≤ 0 ∨ (shift g.direction hd).x ≥ g.width - 1))
    (hmem : shift g.direction hd ∉ g.snake) :
    (g.food = some (shift g.direction hd) →
      (move k g).score = g.score + 10 ∧
      (move k g).snake = shift g.direction hd :: g.snake ∧
      (move k g).snake.length = g.snake.length + 1 ∧
      (move k g).food = (place_food k (grownState g (shift g.direction hd))).food) ∧
    (g.food ≠ some (shift g.direction hd) →
      (move k g).score = g.score ∧
      (move k g).snake = (shift g.direction hd :: g.snake).dropLast ∧
      (move k g).snake.length = g.snake.length ∧
      (move k g).food = g.food) := by
  obtain ⟨h, w, sn, dir, fd, sc, go, bs, dc⟩ := g
  dsimp only at hs hwall hmem ⊢
  subst hs
  simp only [move]
  rw [if_neg hwall, if_neg hmem]
  constructor
  · intro hfd
    rw [if_pos hfd]
    by_cases hsp : (place_food k
        ⟨h, w, shift dir hd :: hd :: tl, dir, fd, sc + 10, go, bs, false⟩).base_speed > 40
    · rw [if_pos hsp]
      refine ⟨?_, ?_, ?_, ?_⟩ <;>
        simp [place_food_score, place_food_snake, grownState]
    · rw [if_neg hsp]
      refine ⟨?_, ?_, ?_, ?_⟩ <;>
        simp [place_food_score, place_food_snake, grownState]
  · intro hfd
    rw [if_neg hfd]
    refine ⟨rfl, rfl, ?_, rfl⟩
    simp [List.length_dropLast]

/-- Witness for C4 at the concrete state `gEat` (head steps onto food). -/
theorem food_growth_or_tail_pop_witness :
    (gEat.food = some (shift gEat.direction ⟨5, 5⟩) →
      (move 0 gEat).score = gEat.score + 10 ∧
      (move 0 gEat).snake = shift gEat.direction ⟨5, 5⟩ :: gEat.snake ∧
      (move 0 gEat).snake.length = gEat.snake.length + 1 ∧
      (move 0 gEat).food = (place_food 0 (grownState gEat (shift gEat.direction ⟨5, 5⟩))).food) ∧
    (gEat.food ≠ some (shift gEat.direction ⟨5, 5⟩) →
      (move 0 gEat).score = gEat.score ∧
      (move 0 gEat).snake = (shift gEat.direction ⟨5, 5⟩ :: gEat.snake).dropLast ∧
      (move 0 gEat).snake.length = gEat.snake.length ∧
      (move 0 gEat).food = gEat.food) :=
  food_growth_or_tail_pop gEat 0 ⟨5, 5⟩ [] rfl rfl (by decide) (by decide)

/-! ## C7: place_food when no interior cell is free -/

/-- A 3×3 grid whose single interior cell is occupied by the snake,
with a (stale) food cell still recorded. -/
def gCramped : Game :=
  ⟨3, 3, [⟨1, 1⟩], .right, some ⟨1, 1⟩, 0, false, 120, false⟩

/-- Claim C7 counterexample: the function `place_food` does *not* reset food to none
when the free set is empty: on the reachable state `traceFull` (snake
covering the whole interior, stale food at (2,1)) the food stays set. -/
theorem place_food_empty_not_none_counterexample :
    Reach traceFull ∧ emptyCells traceFull = [] ∧
    (place_food 0 traceFull).food = some ⟨2, 1⟩ ∧
    (place_food 0 traceFull).food ≠ none := by
  refine ⟨?_, by decide, by decide, by decide⟩
  exact Reach.tick 0 (Reach.dir .down (Reach.tick 0
    (Reach.dir .left (Reach.tick 0 (Reach.dir .up (Reach.init 4 4 1))))))

/-- With no free interior cell, `place_food` is the identity. -/
lemma place_food_id_of_no_free (k : Nat) (g : Game)
    (he : emptyCells g = []) : place_food k g = g := by
  simp [place_food, he]

/-- Claim C7 amended: when the set of free interior cells is empty,
`place_food` leaves the state — in particular the food field — entirely
unchanged (so food stays none only if it already was none); the
operation is total and cannot fail. -/
theorem place_food_empty_leaves_state (k : Nat) (g : Game)
    (he : emptyCells g = []) : place_food k g = g :=
  place_food_id_of_no_free k g he

/-- Witness for the amended C7 at the concrete state `gCramped`. -/
theorem place_food_empty_leaves_state_witness :
    place_food 5 gCramped = gCramped :=
  place_food_empty_leaves_state 5 gCramped (by decide)

/-! ## C6: the food-not-on-snake invariant -/

/-- The invariant claimed by the spec, weakened by the only failure the
code allows: food is off the body unless the body fills the interior. -/
def FoodInv (g : Game) : Prop :=
  ∀ c : Cell, g.food = some c →
    c ∉ g.snake ∨ ∀ d ∈ interiorCells g.height g.width, d ∈ g.snake

/-- The element `place_food` picks is a member of the free list. -/
lemma getD_mod_mem (l : List Cell) (k : Nat) (d : Cell) (hne : l ≠ []) :
    l.getD (k % l.length) d ∈ l := by
  have hlt : k % l.length < l.length :=
    Nat.mod_lt _ (List.length_pos.mpr hne)
  rw [List.getD_eq_getElem?_getD, List.getElem?_eq_getElem hlt]
  exact List.getElem_mem hlt

/-- Calling `place_food` always (re-)establishes the invariant, no matter the
state it is called on. -/
lemma place_food_foodInv (k : Nat) (g : Game) : FoodInv (place_food k g) := by
  obtain ⟨h, w, sn, dir, fd, sc, go, bs, dc⟩ := g
  by_cases he : (emptyCells ⟨h, w, sn, dir, fd, sc, go, bs, dc⟩).isEmpty
  · intro c _
    right
    intro d hd
    rw [place_food_height, place_food_width] at hd
    rw [place_food_snake]
    rw [List.isEmpty_iff] at he
    have := List.filter_eq_nil_iff.mp he d hd
    simpa using this
  · intro c hc
    left
    unfold place_food at hc
    rw [if_neg he] at hc
    dsimp only at hc
    rw [Option.some_inj] at hc
    rw [place_food_snake]
    have hne : emptyCells ⟨h, w, sn, dir, fd, sc, go, bs, dc⟩ ≠ [] := by
      intro hnil
      rw [List.isEmpty_iff] at he
      exact he hnil
    have hmem := getD_mod_mem _ k ⟨0, 0⟩ hne
    rw [hc] at hmem
    have := List.mem_filter.mp hmem
    simpa using this.2

/-- An in-bounds computed head is one of the interior cells. -/
lemma mem_interiorCells_of_inbounds (h w : Int) (c : Cell)
    (hb : ¬ (c.y ≤ 0 ∨ c.y ≥ h - 1 ∨ c.x ≤ 0 ∨ c.x ≥ w - 1)) :
    c ∈ interiorCells h w := by
  obtain ⟨cy, cx⟩ := c
  dsimp only at hb
  have hy : (cy - 1).toNat < (h - 2).toNat := by omega
  have hx : (cx - 1).toNat < (w - 2).toNat := by omega
  apply List.mem_flatMap.mpr
  refine ⟨(cy - 1).toNat, List.mem_range.mpr hy, ?_⟩
  apply List.mem_map.mpr
  refine ⟨(cx - 1).toNat, List.mem_range.mpr hx, ?_⟩
  simp only [Cell.mk.injEq, Int.ofNat_eq_coe]
  omega

@[simp]
lemma change_direction_snake (d : Direction) (g : Game) :
    (change_direction d g).snake = g.snake := by
  unfold change_direction
  split_ifs <;> rfl

@[simp]
lemma change_direction_food (d : Direction) (g : Game) :
    (change_direction d g).food = g.food := by
  unfold change_direction
  split_ifs <;> rfl

@[simp]
lemma change_direction_score (d : Direction) (g : Game) :
    (change_direction d g).score = g.score := by
  unfold change_direction
  split_ifs <;> rfl

@[simp]
lemma change_direction_height (d : Direction) (g : Game) :
    (change_direction d g).height = g.height := by
  unfold change_direction
  split_ifs <;> rfl

@[simp]
lemma change_direction_width (d : Direction) (g : Game) :
    (change_direction d g).width = g.width := by
  unfold change_direction
  split_ifs <;> rfl

lemma change_direction_foodInv (d : Direction) (g : Game) (hI : FoodInv g) :
    FoodInv (change_direction d g) := by
  intro c hc
  rw [change_direction_food] at hc
  rcases hI c hc with hnot | hall
  · left
    rwa [change_direction_snake]
  · right
    rw [change_direction_snake, change_direction_height, change_direction_width]
    exact hall

lemma move_foodInv (k : Nat) (g : Game) (hI : FoodInv g) : FoodInv (move k g) := by
  obtain ⟨h, w, sn, dir, fd, sc, go, bs, dc⟩ := g
  cases sn with
  | nil => exact hI
  | cons hd tl =>
    simp only [move]
    by_cases hwall : (shift dir hd).y ≤ 0 ∨ (shift dir hd).y ≥ h - 1 ∨
        (shift dir hd).x ≤ 0 ∨ (shift dir hd).x ≥ w - 1
    · rw [if_pos hwall]
      exact hI
    · rw [if_neg hwall]
      by_cases hmem : shift dir hd ∈ hd :: tl
      · rw [if_pos hmem]
        exact hI
      · rw [if_neg hmem]
        by_cases hfd : fd = some (shift dir hd)
        · rw [if_pos hfd]
          by_cases hsp : (place_food k
              ⟨h, w, shift dir hd :: hd :: tl, dir, fd, sc + 10, go, bs, false⟩).base_speed > 40
          · rw [if_pos hsp]
            intro c hc
            dsimp only at hc
            rcases place_food_foodInv k
                ⟨h, w, shift dir hd :: hd :: tl, dir, fd, sc + 10, go, bs, false⟩ c hc with
              hnot | hall
            · left
              exact hnot
            · right
              exact hall
          · rw [if_neg hsp]
            exact place_food_foodInv k _
        · rw [if_neg hfd]
          intro c hc
          dsimp only at hc
          rcases hI c hc with hnot | hall
          · left
            intro hin
            dsimp only at hin
            have hin' := (List.dropLast_sublist
              (shift dir hd :: hd :: tl)).subset hin
            rcases List.mem_cons.mp hin' with hEq | hIn
            · exact hfd (hEq ▸ hc)
            · exact hnot hIn
          · exfalso
            exact hmem (hall _ (mem_interiorCells_of_inbounds h w _ hwall))

/-- Every reachable state satisfies the (weakened) food invariant. -/
lemma reach_foodInv {g : Game} (hr : Reach g) : FoodInv g := by
  induction hr with
  | init h w k => exact place_food_foodInv k _
  | tick k _ ih => exact move_foodInv k _ ih
  | dir d _ ih => exact change_direction_foodInv d _ ih

/-- Claim C6 counterexample: a reachable state (snake filling the 4×4
grid's interior after the last food was eaten) whose food cell lies on
the snake body: the claimed invariant does not hold in every reachable
state. -/
theorem food_on_snake_counterexample :
    Reach traceFull ∧ traceFull.food = some ⟨2, 1⟩ ∧ ⟨2, 1⟩ ∈ traceFull.snake := by
  refine ⟨?_, by decide, by decide⟩
  exact Reach.tick 0 (Reach.dir .down (Reach.tick 0
    (Reach.dir .left (Reach.tick 0 (Reach.dir .up (Reach.init 4 4 1))))))

/-- Claim C6 amended: in every reachable state in which food is set, the
food cell is off the snake body *unless* the body covers every interior
cell (the one case the code's `place_food` cannot avoid: with no free
cell it keeps the stale, just-eaten food).  This weakened invariant is
preserved by every tick, direction change and food placement. -/
theorem reachable_food_off_snake_unless_full (g : Game) (c : Cell)
    (hr : Reach g) (hf : g.food = some c) :
    c ∉ g.snake ∨ ∀ d ∈ interiorCells g.height g.width, d ∈ g.snake :=
  reach_foodInv hr c hf

/-- Witness for the amended C6 at the freshly initialized 10×10 game. -/
theorem reachable_food_off_snake_unless_full_witness :
    (⟨1, 1⟩ : Cell) ∉ (init 10 10 0).snake ∨
    ∀ d ∈ interiorCells (init 10 10 0).height (init 10 10 0).width,
      d ∈ (init 10 10 0).snake :=
  reachable_food_off_snake_unless_full (init 10 10 0) ⟨1, 1⟩
    (Reach.init 10 10 0) (by decide)

/-! ## C8: initialization and small grids

`SnakeGame.__init__` contains no dimension check and no raise; it
constructs a state for any dimensions.  On a grid with an empty
interior the initial `place_food` finds no cell and food stays none. -/

/-- Claim C8 counterexample: initialization with a 2×2 grid (interior
empty) does not fail: it constructs an ordinary `GameState` — there is
no `InvalidDimension` check anywhere in the constructor. -/
theorem init_small_grid_counterexample :
    init 2 2 0 = ⟨2, 2, [⟨1, 1⟩], .right, none, 0, false, 120, false⟩ := by
  decide

/-- Claim C8 amended: for every height and width with `height < 3` or
`width < 3`, initialization still succeeds and yields the fully
determined state: single-cell snake at the floored centre, direction
Right, score 0, not game over — and food left `none` because the
interior holds no free cell. -/
theorem init_small_grid_total (h w : Int) (k : Nat) (hsmall : h < 3 ∨ w < 3) :
    init h w k = ⟨h, w, [⟨h.fdiv 2, w.fdiv 2⟩], .right, none, 0, false, 120, false⟩ := by
  unfold init
  rw [place_food_id_of_no_free]
  rcases hsmall with hh | hw
  · have h0 : (h - 2).toNat = 0 := by omega
    simp [emptyCells, interiorCells, h0]
  · have h0 : (w - 2).toNat = 0 := by omega
    simp [emptyCells, interiorCells, h0]

/-- Witness for the amended C8 at a 2×5 grid. -/
theorem init_small_grid_total_witness :
    init 2 5 7 = ⟨2, 5, [⟨1, 2⟩], .right, none, 0, false, 120, false⟩ :=
  init_small_grid_total 2 5 7 (Or.inl (by decide))

/-! ## C9: direction-change debouncing -/

/-- How many of the queued requests, applied in order through
`change_direction`, actually change the current direction value. -/
def countChanges (g : Game) : List Direction → Nat
  | [] => 0
  | d :: ds =>
    (if (change_direction d g).direction ≠ g.direction then 1 else 0) +
      countChanges (change_direction d g) ds

lemma change_direction_of_flag (d : Direction) (g : Game)
    (hf : g.direction_changed = true) : change_direction d g = g := by
  simp [change_direction, hf]

lemma countChanges_of_flag (g : Game) (hf : g.direction_changed = true)
    (reqs : List Direction) : countChanges g reqs = 0 := by
  induction reqs with
  | nil => rfl
  | cons d ds ih => simp [countChanges, change_direction_of_flag d g hf, ih]

lemma change_direction_flag_of_ne (d : Direction) (g : Game)
    (hne : (change_direction d g).direction ≠ g.direction) :
    (change_direction d g).direction_changed = true := by
  by_cases h1 : g.direction_changed = true
  · exact absurd (by rw [change_direction_of_flag d g h1]) hne
  · rw [Bool.not_eq_true] at h1
    by_cases h2 : d = opposite g.direction
    · exact absurd (by simp [change_direction, h1, h2]) hne
    · simp [change_direction, h1, h2]

lemma countChanges_le_one :
    ∀ (reqs : List Direction) (g : Game), g.direction_changed = false →
      countChanges g reqs ≤ 1 := by
  intro reqs
  induction reqs with
  | nil =>
    intro g _
    exact Nat.zero_le 1
  | cons d ds ih =>
    intro g _
    simp only [countChanges]
    by_cases hch : (change_direction d g).direction ≠ g.direction
    · rw [if_pos hch]
      have h0 := countChanges_of_flag (change_direction d g)
        (change_direction_flag_of_ne d g hch) ds
      omega
    · rw [if_neg hch]
      by_cases hfl : (change_direction d g).direction_changed = true
      · have h0 := countChanges_of_flag (change_direction d g) hfl ds
        omega
      · rw [Bool.not_eq_true] at hfl
        have h0 := ih (change_direction d g) hfl
        omega

lemma move_direction_changed (k : Nat) (g : Game) :
    (move k g).direction_changed = false := by
  obtain ⟨h, w, sn, dir, fd, sc, go, bs, dc⟩ := g
  cases sn with
  | nil => rfl
  | cons hd tl =>
    simp only [move]
    split_ifs <;> simp [place_food_direction_changed]

/-- Claim C9: Starting from any tick (which clears the debounce flag), at
most one of the direction requests issued before the next tick actually
changes `direction`; every later request in that interval is ignored. -/
theorem at_most_one_direction_change_between_ticks
    (g : Game) (k : Nat) (reqs : List Direction) :
    countChanges (move k g) reqs ≤ 1 :=
  countChanges_le_one reqs (move k g) (move_direction_changed k g)

/-! ## C10: the score always equals 10 × (length − 1) -/

lemma move_score_length (k : Nat) (g : Game) (hlen : 1 ≤ g.snake.length) :
    ((move k g).score = g.score ∧ (move k g).snake.length = g.snake.length) ∨
    ((move k g).score = g.score + 10 ∧
      (move k g).snake.length = g.snake.length + 1) := by
  obtain ⟨h, w, sn, dir, fd, sc, go, bs, dc⟩ := g
  cases sn with
  | nil => simp at hlen
  | cons hd tl =>
    simp only [move]
    by_cases hwall : (shift dir hd).y ≤ 0 ∨ (shift dir hd).y ≥ h - 1 ∨
        (shift dir hd).x ≤ 0 ∨ (shift dir hd).x ≥ w - 1
    · rw [if_pos hwall]
      exact Or.inl ⟨rfl, rfl⟩
    · rw [if_neg hwall]
      by_cases hmem : shift dir hd ∈ hd :: tl
      · rw [if_pos hmem]
        exact Or.inl ⟨rfl, rfl⟩
      · rw [if_neg hmem]
        by_cases hfd : fd = some (shift dir hd)
        · rw [if_pos hfd]
          right
          by_cases hsp : (place_food k
              ⟨h, w, shift dir hd :: hd :: tl, dir, fd, sc + 10, go, bs, false⟩).base_speed > 40
          · rw [if_pos hsp]
            constructor <;> simp [place_food_score, place_food_snake]
          · rw [if_neg hsp]
            constructor <;> simp [place_food_score, place_food_snake]
        · rw [if_neg hfd]
          left
          refine ⟨rfl, ?_⟩
          simp [List.length_dropLast]

lemma reach_score_length {g : Game} (hr : Reach g) :
    1 ≤ g.snake.length ∧ g.score = 10 * (g.snake.length - 1) := by
  induction hr with
  | init h w k =>
    constructor
    · simp [init]
    · simp [init]
  | tick k hg ih =>
    rcases move_score_length k _ ih.1 with ⟨hs, hl⟩ | ⟨hs, hl⟩ <;>
      (obtain ⟨ih1, ih2⟩ := ih; constructor <;> [omega; skip]) <;>
      rw [hs, hl, ih2] <;> omega
  | dir d hg ih =>
    rw [change_direction_snake, change_direction_score]
    exact ih

/-- Claim C10: In every state reachable from initialization by any
sequence of ticks and direction changes, the score equals 10 times
(snake body length − 1): exactly the eaten-food count times the fixed
reward. -/
theorem score_tracks_length (g : Game) (hr : Reach g) :
    g.score = 10 * (g.snake.length - 1) :=
  (reach_score_length hr).2

/-- Witness for C10 at the freshly initialized 10×10 game. -/
theorem score_tracks_length_witness :
    (init 10 10 0).score = 10 * ((init 10 10 0).snake.length - 1) :=
  score_tracks_length (init 10 10 0) (Reach.init 10 10 0)

end SnakeGame
